import Mathlib

/-!
Verification of the PNG → PDF converter (`tools/convert_pngs_into_pdf.py`).

The development shallowly embeds the decoder (`PngImage.load`, `PngImage.to_rgb`,
`apply_filter`, `paeth_predictor`) and the document builder (`make_pdf`) as
executable Lean functions over byte lists (`List Nat`, each entry a byte value),
and proves the specified properties about them.  External zlib calls
(`zlib.decompress` / `zlib.compress`) are kept as parameters: every claim below
quantifies over their output, so nothing depends on the codec itself.
-/

/-- Byte encoding of an ASCII string (every character of the source strings is
ASCII, so the char code is the byte value). -/
def encStr (s : String) : List Nat := s.data.map Char.toNat

/-- Big-endian 32-bit integer from a 4-byte list (`struct.unpack(">I", ·)`). -/
def be32 (l : List Nat) : Nat := l.foldl (fun a b => a * 256 + b) 0

/-- The fixed 8-byte PNG signature `b"\x89PNG\r\n\x1a\n"`. -/
def pngSignature : List Nat := [0x89, 0x50, 0x4E, 0x47, 0x0D, 0x0A, 0x1A, 0x0A]

def tagIHDR : List Nat := encStr "IHDR"

def tagIDAT : List Nat := encStr "IDAT"

def tagPLTE : List Nat := encStr "PLTE"

def tagTRNS : List Nat := encStr "tRNS"

def tagIEND : List Nat := encStr "IEND"

/-- Mutable state of a `PngImage` instance (`PngImage.__init__`). -/
structure PngState where
  width : Nat := 0
  height : Nat := 0
  bitDepth : Nat := 0
  colorType : Nat := 0
  compression : Nat := 0
  filterMethod : Nat := 0
  interlace : Nat := 0
  idat : List (List Nat) := []
  palette : Option (List (Nat × Nat × Nat)) := none
  transparency : Option (List Nat) := none
deriving Repr, DecidableEq

/-- The freshly constructed decoder state. -/
def initState : PngState := {}

/-- Every way `PngImage.load` can fail.  The `systemExit`-style raises of the
source each get one constructor; `structUnpack` is the `struct.error` raised by
`struct.unpack` itself on a buffer of the wrong size (the source does not catch
it, so it is not one of the program's own classified failures). -/
inductive LoadError where
  | notAPng
  | structUnpack
  | unsupportedCompressionParams
  | malformedPlte
  | invalidPaletteSize (entries : Nat)
  | noImageData
  | unsupportedBitDepth (d : Nat)
  | interlacedUnsupported
  | unsupportedColorType (t : Nat)
  | missingPlte
  | fuelExhausted
deriving Repr, DecidableEq

/-- Error kinds of the specification (§7), plus `unclassified` for exceptions
that are not part of the program's own error scheme.  Modelled from the spec's
words, to compare the implementation's failures against.  -/
inductive SpecErrKind where
  | signature
  | unsupportedFormat
  | missingData
  | malformedChunk
  | unclassified
deriving Repr, DecidableEq

/-- Classification of each implementation failure under the spec's error kinds
(§7).  The `struct.error` escaping `struct.unpack` is not raised by the program
itself and carries none of its classification, hence `unclassified`. -/
def specKind : LoadError → SpecErrKind
  | .notAPng => .signature
  | .structUnpack => .unclassified
  | .unsupportedCompressionParams => .unsupportedFormat
  | .malformedPlte => .malformedChunk
  | .invalidPaletteSize _ => .malformedChunk
  | .noImageData => .missingData
  | .unsupportedBitDepth _ => .unsupportedFormat
  | .interlacedUnsupported => .unsupportedFormat
  | .unsupportedColorType _ => .unsupportedFormat
  | .missingPlte => .missingData
  | .fuelExhausted => .unclassified

/-- `PngImage._parse_ihdr`.  `struct.unpack(">IIBBBBB", data)` needs exactly 13
bytes and raises `struct.error` otherwise, before any field is assigned; on
success all seven fields are assigned, and only then are the compression and
filter-method parameters checked. -/
def parseIhdr (st : PngState) (data : List Nat) : Option LoadError × PngState :=
  if data.length ≠ 13 then (some .structUnpack, st)
  else
    let st₂ := { st with
      width := be32 (data.take 4)
      height := be32 ((data.drop 4).take 4)
      bitDepth := data.getD 8 0
      colorType := data.getD 9 0
      compression := data.getD 10 0
      filterMethod := data.getD 11 0
      interlace := data.getD 12 0 }
    if st₂.compression ≠ 0 ∨ st₂.filterMethod ≠ 0 then
      (some .unsupportedCompressionParams, st₂)
    else (none, st₂)

/-- Group a byte list into consecutive triples (`tuple(data[i:i+3])` over a
payload whose length is a multiple of 3). -/
def toTriples : List Nat → List (Nat × Nat × Nat)
  | a :: b :: c :: rest => (a, b, c) :: toTriples rest
  | _ => []

/-- `PngImage._parse_palette`. -/
def parsePalette (st : PngState) (data : List Nat) : Option LoadError × PngState :=
  if data.length % 3 ≠ 0 then (some .malformedPlte, st)
  else
    let entries := data.length / 3
    if entries = 0 ∨ entries > 256 then (some (.invalidPaletteSize entries), st)
    else (none, { st with palette := some (toTriples data) })

/-- The chunk loop of `PngImage.load`: read a 4-byte length (an empty read
breaks the loop, a short one makes `struct.unpack` fail), a 4-byte type tag,
`length` payload bytes and 4 checksum bytes that are consumed unverified, then
dispatch on the tag.  Sequential `stream.read` calls on a fully buffered input
are `take`/`drop` on the remaining byte list.  The loop is driven by a fuel
counter so that it is structurally recursive; every iteration consumes at least
one byte of the remaining stream, so fuel equal to the stream length always
suffices (`loadGo_fuel_sufficient` below) and `.fuelExhausted` is unreachable
from `pngLoadSt`. -/
def loadGo : Nat → PngState → List Nat → Option LoadError × PngState
  | 0, st, l => if l = [] then (none, st) else (some .fuelExhausted, st)
  | fuel + 1, st, l =>
    if l = [] then (none, st)
    else if l.length < 4 then (some .structUnpack, st)
    else
      let len := be32 (l.take 4)
      let ctype := (l.drop 4).take 4
      let data := (l.drop 8).take len
      let rest := l.drop (12 + len)
      if ctype = tagIHDR then
        match parseIhdr st data with
        | (some e, st₂) => (some e, st₂)
        | (none, st₂) => loadGo fuel st₂ rest
      else if ctype = tagIDAT then loadGo fuel { st with idat := st.idat ++ [data] } rest
      else if ctype = tagPLTE then
        match parsePalette st data with
        | (some e, st₂) => (some e, st₂)
        | (none, st₂) => loadGo fuel st₂ rest
      else if ctype = tagTRNS then loadGo fuel { st with transparency := some data } rest
      else if ctype = tagIEND then (none, st)
      else loadGo fuel st rest

/-- The post-loop validation of `PngImage.load` (lines 69–79), in source
order. -/
def postChecks (st : PngState) : Option LoadError :=
  if st.idat = [] then some .noImageData
  else if st.bitDepth ≠ 8 then some (.unsupportedBitDepth st.bitDepth)
  else if st.interlace ≠ 0 then some .interlacedUnsupported
  else if st.colorType ≠ 2 ∧ st.colorType ≠ 3 ∧ st.colorType ≠ 6 then
    some (.unsupportedColorType st.colorType)
  else if st.colorType = 3 ∧ (st.palette.getD []) = [] then some .missingPlte
  else none

/-- `PngImage.load` on a fully buffered input: check the signature, run the
chunk loop, then the post-loop checks.  The state at the moment of failure is
returned alongside the error — this is exactly what remains on the `PngImage`
instance when the exception propagates. -/
def pngLoadSt (input : List Nat) : Option LoadError × PngState :=
  if input.take 8 ≠ pngSignature then (some .notAPng, initState)
  else
    match loadGo input.length initState (input.drop 8) with
    | (some e, st) => (some e, st)
    | (none, st) =>
      match postChecks st with
      | some e => (some e, st)
      | none => (none, st)

/-- Every way `PngImage.to_rgb` can fail: an out-of-range index into `bytes` or
a list (Python `IndexError`), tuple unpacking of a slice of the wrong size
(`ValueError`), the classified palette-index failure, an unsupported filter
type, assigning a non-byte value into a `bytearray` cell (`ValueError`), and
the failed `assert` on a missing palette. -/
inductive RgbError where
  | indexErr
  | unpackErr
  | paletteIndexOutOfRange (idx : Nat)
  | unsupportedFilterType (t : Nat)
  | byteValueErr
  | assertionErr
deriving Repr, DecidableEq

/-- Python slice assignment `l[a:b] = x` on a list/bytearray (for `a ≤ b`):
the elements in positions `[a, b)` are replaced by `x`, whatever its length;
`take`/`drop` clamp exactly like slice bounds do. -/
def setSlice (l : List Nat) (a b : Nat) (x : List Nat) : List Nat :=
  l.take a ++ x ++ l.drop b

/-- Python item assignment `l[i] = v` on a bytearray: fails on an out-of-range
index and on a value that does not fit in a byte. -/
def setByte (l : List Nat) (i v : Nat) : Except RgbError (List Nat) :=
  if i < l.length then
    if v ≤ 255 then .ok (l.set i v) else .error .byteValueErr
  else .error .indexErr

/-- The alpha-blend-over-white channel value
`(channel * a + 255 * (255 - a) + 127) // 255` of `PngImage.to_rgb`. -/
def blendChannel (c a : Nat) : Nat := (c * a + 255 * (255 - a) + 127) / 255

/-- The per-pixel alpha handling shared verbatim by the `channels == 4` branch
(lines 129–137) and the indexed branch (lines 147–154) of `PngImage.to_rgb`:
fully opaque copies the triple, fully transparent writes white, anything else
writes the three blended channel values through checked item assignments. -/
def writeAlphaPixel (result : List Nat) (out r g b a : Nat) : Except RgbError (List Nat) :=
  if a = 255 then .ok (setSlice result out (out + 3) [r, g, b])
  else if a = 0 then .ok (setSlice result out (out + 3) [255, 255, 255])
  else
    match setByte result out (blendChannel r a) with
    | .error e => .error e
    | .ok res₁ =>
      match setByte res₁ (out + 1) (blendChannel g a) with
      | .error e => .error e
      | .ok res₂ => setByte res₂ (out + 2) (blendChannel b a)

/-- The loop `for idx, value in enumerate(transparency): if idx < len(table):
table[idx] = value` building the indexed-mode alpha table. -/
def trnsLoop : List Nat → Nat → List Nat → List Nat
  | t, _, [] => t
  | t, idx, v :: rest => trnsLoop (if idx < t.length then t.set idx v else t) (idx + 1) rest

/-- The indexed-mode alpha table: `[255] * len(palette)` overwritten from the
transparency payload, entries past the palette silently ignored. -/
def buildAlphaTable (palLen : Nat) (trns : List Nat) : List Nat :=
  trnsLoop (List.replicate palLen 255) 0 trns

/-- `paeth_predictor(a, b, c)`; Python integers can go negative in `p`, so the
intermediate arithmetic lives in `Int`. -/
def paethPredictor (a b c : Nat) : Nat :=
  let p : Int := (a : Int) + b - c
  let pa := (p - a).natAbs
  let pb := (p - b).natAbs
  let pc := (p - c).natAbs
  if pa ≤ pb ∧ pa ≤ pc then a else if pb ≤ pc then b else c

/-- One in-place filter pass, iterating `i` upward with a countdown of the
remaining steps: `row[i] = f(row, i)`, where each step may read the
already-updated prefix of the row; a `none` from `f` is a Python `IndexError`
escaping the loop. -/
def filterGo (f : List Nat → Nat → Option Nat) : Nat → Nat → List Nat → Option (List Nat)
  | 0, _, r => some r
  | k + 1, i, r =>
    match f r i with
    | none => none
    | some v => filterGo f k (i + 1) (r.set i v)

/-- One in-place filter pass `for i in range(len(row)): row[i] = f(row, i)`
(the range is fixed before the loop; `set` keeps the length constant
throughout, so index `i` always addresses the same cell it would in Python). -/
def filterLoop (f : List Nat → Nat → Option Nat) (row : List Nat) : Option (List Nat) :=
  filterGo f row.length 0 row

/-- `apply_filter(filter_type, row, prev_row, channels)`: reverse one PNG
scanline filter in place.  Reads of the current row are always in bounds
(`i - bpp < i < len`), reads of the previous row go through `(·)[·]?` since
Python would raise `IndexError` there. -/
def applyFilter (ft : Nat) (row prevRow : List Nat) (channels : Nat) :
    Except RgbError (List Nat) :=
  let bpp := channels
  if ft = 0 then .ok row
  else if ft = 1 then
    match filterLoop (fun r i =>
        some ((r.getD i 0 + (if bpp ≤ i then r.getD (i - bpp) 0 else 0)) % 256)) row with
    | some r => .ok r
    | none => .error .indexErr
  else if ft = 2 then
    match filterLoop (fun r i => (prevRow[i]?).map fun u => (r.getD i 0 + u) % 256) row with
    | some r => .ok r
    | none => .error .indexErr
  else if ft = 3 then
    match filterLoop (fun r i =>
        (prevRow[i]?).map fun u =>
          (r.getD i 0 + ((if bpp ≤ i then r.getD (i - bpp) 0 else 0) + u) / 2) % 256) row with
    | some r => .ok r
    | none => .error .indexErr
  else if ft = 4 then
    match filterLoop (fun r i => do
        let u ← prevRow[i]?
        let ul ← if bpp ≤ i then prevRow[i - bpp]? else some 0
        let left := if bpp ≤ i then r.getD (i - bpp) 0 else 0
        some ((r.getD i 0 + paethPredictor left u ul) % 256)) row with
    | some r => .ok r
    | none => .error .indexErr
  else .error (.unsupportedFilterType ft)

/-- Channel count derived from the color type
(`1 if ct == 3 else 3 if ct == 2 else 4`). -/
def channelsOf (ct : Nat) : Nat := if ct = 3 then 1 else if ct = 2 then 3 else 4

/-- The `channels == 4` pixel loop of one row: unpack `row[4px : 4px+4]` into
`(r, g, b, a)` (a slice of any other size makes the unpacking fail) and write
the composited pixel; carries `(result, out_offset)`. -/
def alphaRowLoop (row : List Nat) :
    Nat → Nat → Nat → List Nat → Except RgbError (List Nat × Nat)
  | 0, _, outOff, result => .ok (result, outOff)
  | k + 1, px, outOff, result =>
    match (row.drop (px * 4)).take 4 with
    | [r, g, b, a] =>
      match writeAlphaPixel result outOff r g b a with
      | .error e => .error e
      | .ok res => alphaRowLoop row k (px + 1) (outOff + 3) res
    | _ => .error .unpackErr

/-- The indexed pixel loop of one row: look the palette index up
(`IndexError` is re-raised as the classified palette-range failure), fetch its
alpha, and write the composited pixel. -/
def indexedRowLoop (row : List Nat) (palette : List (Nat × Nat × Nat)) (alphaTable : List Nat) :
    Nat → Nat → Nat → List Nat → Except RgbError (List Nat × Nat)
  | 0, _, outOff, result => .ok (result, outOff)
  | k + 1, px, outOff, result =>
    match row[px]? with
    | none => .error .indexErr
    | some index =>
      match palette[index]? with
      | none => .error (.paletteIndexOutOfRange index)
      | some (r, g, b) =>
        match alphaTable[index]? with
        | none => .error .indexErr
        | some a =>
          match writeAlphaPixel result outOff r g b a with
          | .error e => .error e
          | .ok res => indexedRowLoop row palette alphaTable k (px + 1) (outOff + 3) res

/-- The row loop of `PngImage.to_rgb`: per row read the filter-type byte,
slice the row payload, reverse the filter against the previous reconstructed
row, composite into `result`, and hand the reconstructed row on as the new
previous row. -/
def rowsLoop (dec : List Nat) (width channels : Nat)
    (palette : List (Nat × Nat × Nat)) (alphaTable : List Nat) :
    Nat → Nat → Nat → List Nat → List Nat → Except RgbError (List Nat)
  | 0, _, _, _, result => .ok result
  | h + 1, offset, outOff, prev, result =>
    match dec[offset]? with
    | none => .error .indexErr
    | some ft =>
      match applyFilter ft ((dec.drop (offset + 1)).take (width * channels)) prev channels with
      | .error e => .error e
      | .ok row =>
        if channels = 3 then
          rowsLoop dec width channels palette alphaTable h
            (offset + 1 + width * channels) (outOff + width * channels) row
            (setSlice result outOff (outOff + width * channels) row)
        else if channels = 4 then
          match alphaRowLoop row width 0 outOff result with
          | .error e => .error e
          | .ok ro =>
            rowsLoop dec width channels palette alphaTable h
              (offset + 1 + width * channels) ro.2 row ro.1
        else
          match indexedRowLoop row palette alphaTable width 0 outOff result with
          | .error e => .error e
          | .ok ro =>
            rowsLoop dec width channels palette alphaTable h
              (offset + 1 + width * channels) ro.2 row ro.1

/-- Everything of `PngImage.to_rgb` before the transparency post-pass: set up
the output buffer, the zero previous row and (for indexed images) the alpha
table — the `assert` on a missing palette fails as an `AssertionError` — then
run the row loop. -/
def compositeRows (st : PngState) (dec : List Nat) : Except RgbError (List Nat) :=
  let channels := channelsOf st.colorType
  let result₀ := List.replicate (st.width * st.height * 3) 0
  let prev₀ := List.replicate (st.width * channels) 0
  if channels = 1 then
    match st.palette with
    | none => .error .assertionErr
    | some p =>
      rowsLoop dec st.width channels p (buildAlphaTable p.length (st.transparency.getD []))
        st.height 0 0 prev₀ result₀
  else rowsLoop dec st.width channels [] [] st.height 0 0 prev₀ result₀

/-- The transparency-key post-pass over `width * height` pixels: a pixel whose
three bytes equal the key is overwritten with white. -/
def keyPassAux (key : List Nat) : Nat → Nat → List Nat → List Nat
  | 0, _, result => result
  | k + 1, px, result =>
    let result₂ :=
      if (result.drop (3 * px)).take 3 = key then
        setSlice result (3 * px) (3 * px + 3) [255, 255, 255]
      else result
    keyPassAux key k (px + 1) result₂

/-- `PngImage.to_rgb`, with the zlib-decompressed data stream as a parameter:
composite all rows, then — only for 3-channel images with a non-empty
transparency payload — run the exact-match transparency-key post-pass with
`tuple(transparency[:3])` as the key. -/
def toRgb (st : PngState) (dec : List Nat) : Except RgbError (List Nat) :=
  match compositeRows st dec with
  | .error e => .error e
  | .ok result =>
    if channelsOf st.colorType = 3 ∧ st.transparency.getD [] ≠ [] then
      .ok (keyPassAux ((st.transparency.getD []).take 3) (st.width * st.height) 0 result)
    else .ok result

/-- Body of PDF object 1, the catalog. -/
def catalogBody : List Nat := encStr "<< /Type /Catalog /Pages 2 0 R >>"

/-- Body of PDF object 2, the page tree. -/
def pagesBody : List Nat := encStr "<< /Type /Pages /Kids [3 0 R] /Count 1 >>"

/-- Body of PDF object 3, the page node. -/
def pageBody (width height : Nat) : List Nat :=
  encStr ("<< /Type /Page /Parent 2 0 R /Resources << /XObject << /Im0 4 0 R >> /ProcSet [/PDF /ImageC] >> /MediaBox [0 0 "
    ++ toString width ++ " " ++ toString height ++ "] /Contents 5 0 R >>")

/-- Body of PDF object 4, the image XObject around the compressed RGB data. -/
def imageBody (imageStream : List Nat) (width height : Nat) : List Nat :=
  encStr ("<< /Type /XObject /Subtype /Image /Width " ++ toString width
      ++ " /Height " ++ toString height
      ++ " /ColorSpace /DeviceRGB /BitsPerComponent 8 /Filter /FlateDecode /Length "
      ++ toString imageStream.length ++ " >>\nstream\n")
    ++ imageStream ++ encStr "\nendstream"

/-- The page-painting content stream `q <w> 0 0 <h> 0 0 cm /Im0 Do Q`. -/
def contentsBytes (width height : Nat) : List Nat :=
  encStr ("q " ++ toString width ++ " 0 0 " ++ toString height ++ " 0 0 cm /Im0 Do Q")

/-- Body of PDF object 5, the content-stream object. -/
def contentsBody (width height : Nat) : List Nat :=
  encStr ("<< /Length " ++ toString (contentsBytes width height).length ++ " >>\nstream\n")
    ++ contentsBytes width height ++ encStr "\nendstream"

/-- The fixed output header `b"%PDF-1.4\n%\xff\xff\xff\xff\n"`. -/
def pdfHeader : List Nat := encStr "%PDF-1.4\n%" ++ [255, 255, 255, 255] ++ encStr "\n"

/-- The serialization loop of `make_pdf`: for each body in order, record the
current output length and append `"<n> 0 obj\n"`, the body, `"\nendobj\n"`.
Returns the output with all objects appended and the recorded offsets. -/
def writeObjects : Nat → List (List Nat) → List Nat → List Nat × List Nat
  | _, [], out => (out, [])
  | n, body :: rest, out =>
    let out₂ := out ++ encStr (toString n ++ " 0 obj\n") ++ body ++ encStr "\nendobj\n"
    let fp := writeObjects (n + 1) rest out₂
    (fp.1, out.length :: fp.2)

/-- A 10-digit zero-padded decimal (`f"{pos:010}"`). -/
def fmt10 (n : Nat) : List Nat :=
  encStr (String.mk (List.replicate (10 - (toString n).length) '0') ++ toString n)

/-- Result of `make_pdf`: the output bytes together with the recorded object
offsets and the offset of the cross-reference section. -/
structure PdfBuild where
  output : List Nat
  xrefPositions : List Nat
  xrefStart : Nat
deriving Repr, DecidableEq

/-- The fixed five-object sequence handed to the serialization loop by the
five `add_object` calls, in order. -/
def pdfObjects (imageStream : List Nat) (width height : Nat) : List (List Nat) :=
  [catalogBody, pagesBody, pageBody width height,
    imageBody imageStream width height, contentsBody width height]

/-- Everything `make_pdf` appends after the objects: the cross-reference
section (`xref`, the count line, one free entry, one 10-digit entry per
recorded offset), the trailer, and `startxref` followed by the offset of the
cross-reference section. -/
def xrefTrailer (positions : List Nat) (nObjects xrefStart : Nat) : List Nat :=
  encStr ("xref\n0 " ++ toString (nObjects + 1) ++ "\n")
    ++ encStr "0000000000 65535 f \n"
    ++ (positions.map fun pos => fmt10 pos ++ encStr " 00000 n \n").flatten
    ++ encStr "trailer\n"
    ++ encStr ("<< /Size " ++ toString (nObjects + 1)
      ++ " /Root 1 0 R >>\nstartxref\n" ++ toString xrefStart ++ "\n%%EOF")

/-- `make_pdf(rgb, width, height)`, with the zlib-compressed image stream as a
parameter: serialize the five objects after the header, recording offsets,
then append the cross-reference section and trailer, with `startxref` equal to
the output length at which the cross-reference section begins. -/
def makePdf (imageStream : List Nat) (width height : Nat) : PdfBuild :=
  let objects := pdfObjects imageStream width height
  let op := writeObjects 1 objects pdfHeader
  ⟨op.1 ++ xrefTrailer op.2 objects.length op.1.length, op.2, op.1.length⟩

/-- Failure of the whole `convert_png` pipeline: either the loader or the
pixel decoder raised. -/
inductive ConvError where
  | load (e : LoadError)
  | rgb (e : RgbError)
deriving Repr, DecidableEq

/-- The core of `convert_png`: load the container, decode the pixels, build
the document.  The zlib codec is a parameter pair. -/
def convertPng (decompress compress : List Nat → List Nat) (input : List Nat) :
    Except ConvError (List Nat) :=
  match pngLoadSt input with
  | (some e, _) => .error (.load e)
  | (none, st) =>
    match toRgb st (decompress st.idat.flatten) with
    | .error e => .error (.rgb e)
    | .ok rgb => .ok (makePdf (compress rgb) st.width st.height).output

/-- A concrete container whose header parses (width 5, height 7) and then
fails on compression method 1. -/
def partialStateInput : List Nat :=
  pngSignature ++ [0, 0, 0, 13] ++ tagIHDR
    ++ [0, 0, 0, 5, 0, 0, 0, 7, 8, 2, 1, 0, 0] ++ [0, 0, 0, 0]

/-- The 3-byte window of pixel `px` in a flat RGB buffer. -/
def pixelAt (l : List Nat) (px : Nat) : List Nat := (l.drop (3 * px)).take 3

/-- A 2x1 truecolor state with transparency key (1, 2, 3). -/
def keyedPng : PngState :=
  { initState with width := 2, height := 1, colorType := 2, transparency := some [1, 2, 3] }

/-- Failures of `parseIhdr` are never the fuel marker. -/
theorem parseIhdr_no_fuel {st data e st₂} (h : parseIhdr st data = (some e, st₂)) :
    e ≠ LoadError.fuelExhausted := by
  unfold parseIhdr at h
  split at h
  · injection h with h1 h2
    injection h1 with h1
    subst h1
    simp
  · dsimp only at h
    split at h
    · injection h with h1 h2
      injection h1 with h1
      subst h1
      simp
    · injection h with h1 h2
      exact absurd h1 (by simp)

/-- Failures of `parsePalette` are never the fuel marker. -/
theorem parsePalette_no_fuel {st data e st₂} (h : parsePalette st data = (some e, st₂)) :
    e ≠ LoadError.fuelExhausted := by
  unfold parsePalette at h
  split at h
  · injection h with h1 h2
    injection h1 with h1
    subst h1
    simp
  · dsimp only at h
    split at h
    · injection h with h1 h2
      injection h1 with h1
      subst h1
      simp
    · injection h with h1 h2
      exact absurd h1 (by simp)

/-- Fuel equal to the length of the remaining stream is always enough for the
chunk loop: it never reports `fuelExhausted`. -/
theorem loadGo_fuel_sufficient :
    ∀ fuel st l, l.length ≤ fuel → (loadGo fuel st l).1 ≠ some LoadError.fuelExhausted := by
  intro fuel
  induction fuel with
  | zero =>
    intro st l hl
    have : l = [] := List.length_eq_zero.mp (Nat.le_zero.mp hl)
    subst this
    simp [loadGo]
  | succ n ih =>
    intro st l hl
    by_cases hnil : l = []
    · subst hnil; simp [loadGo]
    · have hpos : 0 < l.length := List.length_pos.mpr hnil
      have hrest : ∀ k, (l.drop (12 + k)).length ≤ n := by
        intro k
        simp only [List.length_drop]
        omega
      by_cases hshort : l.length < 4
      · simp [loadGo, hnil, hshort]
      · simp only [loadGo, if_neg hnil, if_neg hshort]
        split
        · split
          · next heq => simpa using parseIhdr_no_fuel heq
          · exact ih _ _ (hrest _)
        · split
          · exact ih _ _ (hrest _)
          · split
            · split
              · next heq => simpa using parsePalette_no_fuel heq
              · exact ih _ _ (hrest _)
            · split
              · exact ih _ _ (hrest _)
              · split
                · simp
                · exact ih _ _ (hrest _)

/-- Element-level description of `List.set`. -/
theorem getD_set (l : List Nat) (i j v d : Nat) :
    (l.set i v).getD j d = if i = j ∧ i < l.length then v else l.getD j d := by
  by_cases hij : i = j
  · subst hij
    by_cases hi : i < l.length
    · simp [List.getD, List.getElem?_set_self hi, hi]
    · have hs : l.set i v = l := List.set_eq_of_length_le (by omega)
      simp [hs, hi]
  · have hs : (l.set i v)[j]? = l[j]? := List.getElem?_set_ne hij
    simp [List.getD, hs, hij]

/-- The blended channel value always fits in a byte. -/
theorem blend_le (c a : Nat) (hc : c ≤ 255) (ha : a ≤ 255) : blendChannel c a ≤ 255 := by
  unfold blendChannel
  have h1 : c * a ≤ 255 * a := Nat.mul_le_mul_right a hc
  omega

/-- A slice assignment whose replacement has exactly the length of the window
it replaces, with the window inside the list, preserves the length. -/
theorem length_setSlice (l x : List Nat) (a b : Nat) (hb : b = a + x.length)
    (h : b ≤ l.length) : (setSlice l a b x).length = l.length := by
  simp [setSlice]
  omega

/-- Element-level description of an exact in-bounds slice assignment. -/
theorem getElem?_setSlice (l x : List Nat) (a b k : Nat) (hb : b = a + x.length)
    (h : b ≤ l.length) :
    (setSlice l a b x)[k]? = if a ≤ k ∧ k < b then x[k - a]? else l[k]? := by
  subst hb
  have hta : (l.take a).length = a := List.length_take_of_le (by omega)
  have htx : (l.take a ++ x).length = a + x.length := by
    rw [List.length_append, hta]
  unfold setSlice
  rcases Nat.lt_or_ge k a with h1 | h1
  · rw [if_neg (by omega), List.getElem?_append_left (by omega),
      List.getElem?_append_left (by omega)]
    exact List.getElem?_take_of_lt h1
  · rcases Nat.lt_or_ge k (a + x.length) with h2 | h2
    · rw [if_pos ⟨h1, h2⟩, List.getElem?_append_left (by omega),
        List.getElem?_append_right (by omega), hta]
    · rw [if_neg (by omega), List.getElem?_append_right (by omega), htx,
        List.getElem?_drop]
      congr 1
      omega

/-- The three checked byte assignments of the blend branch amount to one
3-byte slice assignment. -/
theorem set3_eq_setSlice (l : List Nat) (out v1 v2 v3 : Nat) (h : out + 3 ≤ l.length) :
    ((l.set out v1).set (out + 1) v2).set (out + 2) v3 = setSlice l out (out + 3) [v1, v2, v3] := by
  apply List.ext_getElem?
  intro k
  rw [getElem?_setSlice l [v1, v2, v3] out (out + 3) k (by simp) (by omega)]
  simp only [List.getElem?_set, List.length_set]
  rcases Nat.lt_trichotomy k out with h1 | h1 | h1
  · rw [if_neg (by omega), if_neg (by omega), if_neg (by omega), if_neg (by omega)]
  · subst h1
    rw [if_neg (by omega), if_neg (by omega), if_pos rfl, if_pos (by omega), if_pos (by omega)]
    simp
  · rcases Nat.lt_trichotomy k (out + 1) with h2 | h2 | h2
    · omega
    · subst h2
      rw [if_neg (by omega), if_pos rfl, if_pos (by omega), if_pos (by omega)]
      simp
    · rcases Nat.lt_trichotomy k (out + 2) with h3 | h3 | h3
      · omega
      · subst h3
        rw [if_pos rfl, if_pos (by omega), if_pos (by omega)]
        simp
      · rw [if_neg (by omega), if_neg (by omega), if_neg (by omega), if_neg (by omega)]

/-- In-bounds byte-valued pixel writes succeed and equal one slice
assignment of the composited triple. -/
theorem writeAlphaPixel_eq (result : List Nat) (out r g b a : Nat)
    (h : out + 3 ≤ result.length) (hr : r ≤ 255) (hg : g ≤ 255) (hb : b ≤ 255) (ha : a ≤ 255) :
    writeAlphaPixel result out r g b a = .ok (setSlice result out (out + 3)
      (if a = 255 then [r, g, b]
       else if a = 0 then [255, 255, 255]
       else [blendChannel r a, blendChannel g a, blendChannel b a])) := by
  unfold writeAlphaPixel
  by_cases h255 : a = 255
  · simp [h255]
  · by_cases h0 : a = 0
    · simp [h255, h0]
    · rw [if_neg h255, if_neg h0, if_neg h255, if_neg h0]
      have l1 : (result.set out (blendChannel r a)).length = result.length := by simp
      have l2 : ((result.set out (blendChannel r a)).set (out + 1) (blendChannel g a)).length
          = result.length := by simp
      simp only [setByte, if_pos (show out < result.length by omega),
        if_pos (blend_le r a hr ha), l1, if_pos (show out + 1 < result.length by omega),
        if_pos (blend_le g a hg ha), l2, if_pos (show out + 2 < result.length by omega),
        if_pos (blend_le b a hb ha)]
      rw [set3_eq_setSlice result out _ _ _ h]

/-- C6: for all byte values `left`, `up`, `upLeft`, `paeth_predictor` returns
whichever of `(left, up, upLeft)` minimizes `|left + up - upLeft - candidate|`,
with ties broken in favour of `left`, then `up`, then `upLeft` (each later
candidate wins only by a strictly smaller distance against the earlier ones);
in particular `paeth_predictor(10, 20, 15) = 15`. -/
theorem c6_paeth_argmin :
    (∀ a b c : Nat,
      (paethPredictor a b c = a
          ∧ ((a : Int) + b - c - a).natAbs ≤ ((a : Int) + b - c - b).natAbs
          ∧ ((a : Int) + b - c - a).natAbs ≤ ((a : Int) + b - c - c).natAbs)
        ∨ (paethPredictor a b c = b
          ∧ ((a : Int) + b - c - b).natAbs < ((a : Int) + b - c - a).natAbs
          ∧ ((a : Int) + b - c - b).natAbs ≤ ((a : Int) + b - c - c).natAbs)
        ∨ (paethPredictor a b c = c
          ∧ ((a : Int) + b - c - c).natAbs < ((a : Int) + b - c - a).natAbs
          ∧ ((a : Int) + b - c - c).natAbs < ((a : Int) + b - c - b).natAbs))
      ∧ paethPredictor 10 20 15 = 15 := by
  refine ⟨fun a b c => ?_, by decide⟩
  unfold paethPredictor
  dsimp only
  split
  · left
    refine ⟨rfl, ?_, ?_⟩ <;> omega
  · split
    · right; left
      refine ⟨rfl, ?_, ?_⟩ <;> omega
    · right; right
      refine ⟨rfl, ?_, ?_⟩ <;> omega

/-- C9: for byte values `c` and `0 < a < 255`, the blend value
`(c*a + 255*(255-a) + 127) / 255` fits in a byte, so the checked bytearray
item assignment performed with it never fails on the value. -/
theorem c9_blend_in_byte_range (c a : Nat) (hc : c ≤ 255) (ha0 : 0 < a) (ha : a < 255) :
    blendChannel c a ≤ 255
      ∧ ∀ res : List Nat, ∀ out : Nat, out < res.length →
          ∃ res₂, setByte res out (blendChannel c a) = .ok res₂ := by
  have hb := blend_le c a hc (by omega)
  refine ⟨hb, fun res out hout => ⟨res.set out (blendChannel c a), ?_⟩⟩
  simp [setByte, hout, hb]

/-- Witness for C9 at the spec's literal case `c = 200`, `a = 128`. -/
theorem c9_blend_in_byte_range_witness :
    blendChannel 200 128 ≤ 255
      ∧ ∃ res₂, setByte [0, 0, 0] 0 (blendChannel 200 128) = .ok res₂ :=
  ⟨(c9_blend_in_byte_range 200 128 (by decide) (by decide) (by decide)).1,
    (c9_blend_in_byte_range 200 128 (by decide) (by decide) (by decide)).2 [0, 0, 0] 0 (by decide)⟩

/-- C5: for every truecolor-alpha pixel written in bounds, full opacity copies
`(r, g, b)`, full transparency writes white, and any other alpha writes the
three half-up rounded blends over white `(channel*a + 255*(255-a) + 127) / 255`;
and the spec's literal case gives `blendChannel 200 128 = 227`. -/
theorem c5_alpha_pixel_rule (result : List Nat) (out r g b a : Nat)
    (h : out + 3 ≤ result.length) (hr : r ≤ 255) (hg : g ≤ 255) (hb : b ≤ 255) (ha : a ≤ 255) :
    writeAlphaPixel result out r g b a = .ok (setSlice result out (out + 3)
      (if a = 255 then [r, g, b]
       else if a = 0 then [255, 255, 255]
       else [blendChannel r a, blendChannel g a, blendChannel b a]))
      ∧ blendChannel 200 128 = 227 :=
  ⟨writeAlphaPixel_eq result out r g b a h hr hg hb ha, by decide⟩

/-- Witness for C5 with the spec's literal channel 200 / alpha 128 pixel. -/
theorem c5_alpha_pixel_rule_witness :
    writeAlphaPixel [0, 0, 0, 0, 0, 0] 1 200 200 200 128 = .ok (setSlice [0, 0, 0, 0, 0, 0] 1 (1 + 3)
      (if (128 : Nat) = 255 then [200, 200, 200]
       else if (128 : Nat) = 0 then [255, 255, 255]
       else [blendChannel 200 128, blendChannel 200 128, blendChannel 200 128]))
      ∧ blendChannel 200 128 = 227 :=
  c5_alpha_pixel_rule [0, 0, 0, 0, 0, 0] 1 200 200 200 128
    (by decide) (by decide) (by decide) (by decide) (by decide)

/-- The transparency-enumeration loop preserves the table length. -/
theorem trnsLoop_length :
    ∀ (vals t : List Nat) (idx : Nat), (trnsLoop t idx vals).length = t.length := by
  intro vals
  induction vals with
  | nil => intro t idx; rfl
  | cons v rest ih =>
    intro t idx
    rw [trnsLoop, ih]
    split <;> simp

/-- Element-level description of the transparency-enumeration loop. -/
theorem trnsLoop_getD :
    ∀ (vals t : List Nat) (idx j : Nat),
      (trnsLoop t idx vals).getD j 0 =
        if idx ≤ j ∧ j < idx + vals.length ∧ j < t.length
        then vals.getD (j - idx) 0 else t.getD j 0 := by
  intro vals
  induction vals with
  | nil =>
    intro t idx j
    rw [trnsLoop, if_neg]
    rintro ⟨h1, h2, h3⟩
    simp only [List.length_nil] at h2
    omega
  | cons v rest ih =>
    intro t idx j
    rw [trnsLoop, ih]
    have ht₂ : (if idx < t.length then t.set idx v else t).length = t.length := by
      split <;> simp
    rw [ht₂]
    by_cases hij : j = idx
    · subst hij
      rw [if_neg (by omega)]
      by_cases hlen : j < t.length
      · rw [if_pos hlen, getD_set, if_pos ⟨rfl, hlen⟩,
          if_pos ⟨Nat.le_refl j, by simp only [List.length_cons]; omega, hlen⟩]
        simp
      · rw [if_neg hlen, if_neg (by rintro ⟨_, _, h3⟩; exact hlen h3)]
    · have hset : (if idx < t.length then t.set idx v else t).getD j 0 = t.getD j 0 := by
        split
        · rw [getD_set, if_neg (by rintro ⟨h1, _⟩; exact hij h1.symm)]
        · rfl
      rw [hset]
      by_cases hcond : idx + 1 ≤ j ∧ j < idx + 1 + rest.length ∧ j < t.length
      · rw [if_pos hcond, if_pos (by simp only [List.length_cons]; omega)]
        rw [show j - idx = (j - (idx + 1)) + 1 by omega]
        simp
      · rw [if_neg hcond, if_neg ?_]
        rintro ⟨h1, h2, h3⟩
        simp only [List.length_cons] at h2
        exact hcond ⟨by omega, by omega, h3⟩

/-- Defaulted lookup in a replicated list. -/
theorem getD_replicate (n j v d : Nat) :
    (List.replicate n v).getD j d = if j < n then v else d := by
  by_cases h : j < n
  · simp [List.getD, List.getElem?_replicate, h]
  · rw [if_neg h]
    have hnone : (List.replicate n v)[j]? = none := List.getElem?_eq_none (by simp; omega)
    simp [List.getD, hnone]

/-- C10: the indexed-mode alpha table always has exactly as many entries as
the palette; transparency entries at positions inside the palette are copied,
entries at or beyond the palette size are silently ignored (the construction is
total — no error, no out-of-bounds write), and palette indices not covered by
the transparency payload keep alpha 255. -/
theorem c10_alpha_table (palLen : Nat) (trns : List Nat) (i : Nat) :
    (buildAlphaTable palLen trns).length = palLen
      ∧ (i < palLen → i < trns.length → (buildAlphaTable palLen trns).getD i 0 = trns.getD i 0)
      ∧ (i < palLen → trns.length ≤ i → (buildAlphaTable palLen trns).getD i 0 = 255) := by
  unfold buildAlphaTable
  refine ⟨by rw [trnsLoop_length]; simp, fun h1 h2 => ?_, fun h1 h2 => ?_⟩
  · rw [trnsLoop_getD, if_pos ⟨Nat.zero_le i, by simpa using h2, by simpa using h1⟩]
    simp
  · rw [trnsLoop_getD, if_neg (by rintro ⟨_, hb, _⟩; omega)]
    rw [getD_replicate, if_pos h1]

/-- Witness for C10: a 2-entry palette with a 3-byte transparency payload —
the table has 2 entries, the in-range entry is copied, the excess byte is
dropped. -/
theorem c10_alpha_table_witness :
    (buildAlphaTable 2 [7, 8, 9]).length = 2
      ∧ (buildAlphaTable 2 [7, 8, 9]).getD 0 0 = ([7, 8, 9] : List Nat).getD 0 0 :=
  ⟨(c10_alpha_table 2 [7, 8, 9] 0).1,
    (c10_alpha_table 2 [7, 8, 9] 0).2.1 (by decide) (by decide)⟩

/-- C2 (amended): a header chunk whose payload is not exactly 13 bytes makes
`struct.unpack` raise `struct.error` before any field is written — an
unclassified exception, not the program's own `MalformedChunkError`. -/
theorem c2_header_size_unclassified (st : PngState) (data : List Nat) (h : data.length ≠ 13) :
    parseIhdr st data = (some .structUnpack, st)
      ∧ specKind .structUnpack = SpecErrKind.unclassified :=
  ⟨by simp [parseIhdr, h], rfl⟩

/-- Witness for C2 (amended) at a 12-byte header payload. -/
theorem c2_header_size_unclassified_witness :
    parseIhdr initState (List.replicate 12 0) = (some .structUnpack, initState)
      ∧ specKind .structUnpack = SpecErrKind.unclassified :=
  c2_header_size_unclassified initState (List.replicate 12 0) (by decide)

/-- Counterexample to C2 as stated: a container whose header chunk carries a
12-byte payload fails, but with the unclassified `struct.error`, whose kind is
not `MalformedChunkError`. -/
theorem c2_claim_counterexample :
    (pngLoadSt (pngSignature ++ [0, 0, 0, 12] ++ tagIHDR
        ++ List.replicate 12 0 ++ [0, 0, 0, 0])).1 = some LoadError.structUnpack
      ∧ specKind LoadError.structUnpack ≠ SpecErrKind.malformedChunk := by
  constructor
  · decide
  · decide

/-- C3 (amended): the compression-method / filter-method checks run inside
`_parse_ihdr`, at the moment the header chunk is dispatched — not after the
chunk loop — so any 13-byte header payload with a nonzero byte 10 or 11 fails
right there with `UnsupportedFormatError`, before the `MissingDataError` check
can ever run. -/
theorem c3_compression_checked_in_header (st : PngState) (data : List Nat)
    (h13 : data.length = 13) (hcf : data.getD 10 0 ≠ 0 ∨ data.getD 11 0 ≠ 0) :
    (parseIhdr st data).1 = some LoadError.unsupportedCompressionParams
      ∧ specKind LoadError.unsupportedCompressionParams = SpecErrKind.unsupportedFormat := by
  constructor
  · unfold parseIhdr
    rw [if_neg (by omega)]
    dsimp only
    rw [if_pos hcf]
  · rfl

/-- Witness for C3 (amended): a 13-byte header payload declaring
compression method 1. -/
theorem c3_compression_checked_in_header_witness :
    (parseIhdr initState [0, 0, 0, 1, 0, 0, 0, 1, 8, 2, 1, 0, 0]).1
        = some LoadError.unsupportedCompressionParams
      ∧ specKind LoadError.unsupportedCompressionParams = SpecErrKind.unsupportedFormat :=
  c3_compression_checked_in_header initState [0, 0, 0, 1, 0, 0, 0, 1, 8, 2, 1, 0, 0]
    (by decide) (Or.inl (by decide))

/-- Counterexample to C3 as stated: a container whose header declares
compression method 1 and which contains no data chunk at all fails with
`UnsupportedFormatError` (raised during header parsing), not with
`MissingDataError`. -/
theorem c3_claim_counterexample :
    (pngLoadSt (pngSignature ++ [0, 0, 0, 13] ++ tagIHDR
        ++ [0, 0, 0, 1, 0, 0, 0, 1, 8, 2, 1, 0, 0] ++ [0, 0, 0, 0]
        ++ [0, 0, 0, 0] ++ tagIEND ++ [0, 0, 0, 0])).1
        = some LoadError.unsupportedCompressionParams
      ∧ specKind LoadError.unsupportedCompressionParams ≠ SpecErrKind.missingData
      ∧ (pngLoadSt (pngSignature ++ [0, 0, 0, 13] ++ tagIHDR
        ++ [0, 0, 0, 1, 0, 0, 0, 1, 8, 2, 1, 0, 0] ++ [0, 0, 0, 0]
        ++ [0, 0, 0, 0] ++ tagIEND ++ [0, 0, 0, 0])).2.idat = [] := by
  refine ⟨by decide, by decide, by decide⟩

/-- Counterexample to C8 as stated: after this failed parse the decoder
instance still holds the partially parsed header fields (width 5 among them),
so partial state does survive the failure on the instance. -/
theorem c8_claim_counterexample :
    (pngLoadSt partialStateInput).1 = some LoadError.unsupportedCompressionParams
      ∧ (pngLoadSt partialStateInput).2 ≠ initState
      ∧ (pngLoadSt partialStateInput).2.width = 5 := by
  refine ⟨by decide, by decide, by decide⟩

/-- C8 (amended): a parse failure leaves partially parsed fields on the
decoder instance, but they are never consumed — the conversion pipeline
propagates the load error unchanged and produces no output, and every
conversion starts from the freshly initialized state. -/
theorem c8_failure_propagates (decompress compress : List Nat → List Nat)
    (input : List Nat) (e : LoadError) (st : PngState)
    (h : pngLoadSt input = (some e, st)) :
    convertPng decompress compress input = .error (.load e) := by
  unfold convertPng
  rw [h]

/-- Witness for C8 (amended) on the concrete failing container. -/
theorem c8_failure_propagates_witness :
    convertPng id id partialStateInput = .error (.load .unsupportedCompressionParams) :=
  c8_failure_propagates id id partialStateInput LoadError.unsupportedCompressionParams
    { width := 5, height := 7, bitDepth := 8, colorType := 2, compression := 1 }
    (by decide)

/-- Byte encoding distributes over string concatenation. -/
theorem encStr_append (s t : String) : encStr (s ++ t) = encStr s ++ encStr t := by
  simp [encStr]

/-- The serialized object header splits into the `"<n> 0 obj"` marker and the
newline that follows it. -/
theorem encStr_marker_split (n : Nat) : encStr (toString n ++ " 0 obj\n")
    = encStr (toString n ++ " 0 obj") ++ encStr "\n" := by
  rw [show (toString n ++ " 0 obj\n") = (toString n ++ " 0 obj") ++ "\n" from by
    rw [String.append_assoc, show (" 0 obj" ++ "\n" : String) = " 0 obj\n" from rfl]]
  rw [encStr_append]

/-- Dropping the bytes written before a marker and taking the marker's length
recovers the marker, whatever follows it. -/
theorem dropTake_marker (pre m post t : List Nat) :
    ((pre ++ m ++ post ++ t).drop pre.length).take m.length = m := by
  rw [show pre ++ m ++ post ++ t = pre ++ (m ++ (post ++ t)) from by simp [List.append_assoc]]
  rw [List.drop_left, List.take_left]

/-- The serialization loop only ever appends to the output it is given. -/
theorem writeObjects_extend :
    ∀ (bodies : List (List Nat)) (n : Nat) (out : List Nat),
      ∃ tail, (writeObjects n bodies out).1 = out ++ tail := by
  intro bodies
  induction bodies with
  | nil => intro n out; exact ⟨[], by simp [writeObjects]⟩
  | cons b rest ih =>
    intro n out
    obtain ⟨tail, htail⟩ := ih (n + 1)
      (out ++ encStr (toString n ++ " 0 obj\n") ++ b ++ encStr "\nendobj\n")
    refine ⟨encStr (toString n ++ " 0 obj\n") ++ b ++ encStr "\nendobj\n" ++ tail, ?_⟩
    rw [writeObjects]
    dsimp only
    rw [htail]
    simp [List.append_assoc]

/-- The serialization loop records one offset per body, and each recorded
offset is the length of the output written before that object — equivalently,
the output continues at that offset with the `"<n> 0 obj"` marker. -/
theorem writeObjects_spec :
    ∀ (bodies : List (List Nat)) (n : Nat) (out : List Nat),
      (writeObjects n bodies out).2.length = bodies.length
        ∧ ∀ i, i < bodies.length →
            ∃ pre post, (writeObjects n bodies out).1
                = pre ++ encStr (toString (n + i) ++ " 0 obj") ++ post
              ∧ (writeObjects n bodies out).2.getD i 0 = pre.length := by
  intro bodies
  induction bodies with
  | nil =>
    intro n out
    exact ⟨rfl, fun i hi => absurd hi (by simp)⟩
  | cons b rest ih =>
    intro n out
    constructor
    · rw [writeObjects]
      dsimp only
      rw [List.length_cons, (ih (n + 1) _).1, List.length_cons]
    · intro i hi
      match i with
      | 0 =>
        obtain ⟨tail, htail⟩ := writeObjects_extend rest (n + 1)
          (out ++ encStr (toString n ++ " 0 obj\n") ++ b ++ encStr "\nendobj\n")
        refine ⟨out, encStr "\n" ++ b ++ encStr "\nendobj\n" ++ tail, ?_, ?_⟩
        · rw [writeObjects]
          dsimp only
          rw [htail, encStr_marker_split]
          simp [List.append_assoc, Nat.add_zero]
        · rw [writeObjects]
          dsimp only
          rw [List.getD_cons_zero]
      | i + 1 =>
        obtain ⟨pre, post, hfin, hpos⟩ := (ih (n + 1)
          (out ++ encStr (toString n ++ " 0 obj\n") ++ b ++ encStr "\nendobj\n")).2 i
          (by simpa using hi)
        refine ⟨pre, post, ?_, ?_⟩
        · rw [writeObjects]
          dsimp only
          rw [show n + (i + 1) = n + 1 + i from by omega]
          exact hfin
        · rw [writeObjects]
          dsimp only
          rw [List.getD_cons_succ]
          exact hpos

/-- The appended cross-reference/trailer section always begins with the four
bytes `"xref"`. -/
theorem xrefTrailer_take4 (positions : List Nat) (n s : Nat) :
    (xrefTrailer positions n s).take 4 = encStr "xref" := by
  unfold xrefTrailer
  rw [encStr_append, encStr_append]
  simp only [List.append_assoc]
  rw [List.take_append_of_le_length (by decide)]
  decide

/-- C1: in every built document the recorded cross-reference offsets are one
per object, the output bytes at the offset recorded for object `n` (n = 1..5)
are exactly the marker `"<n> 0 obj"`, and the output bytes at the recorded
`startxref` value are exactly `"xref"`, the start of the cross-reference
section. -/
theorem c1_xref_table_offsets (imageStream : List Nat) (width height : Nat) :
    (makePdf imageStream width height).xrefPositions.length = 5
      ∧ (∀ i, i < 5 →
          ((makePdf imageStream width height).output.drop
              ((makePdf imageStream width height).xrefPositions.getD i 0)).take
            (encStr (toString (i + 1) ++ " 0 obj")).length
            = encStr (toString (i + 1) ++ " 0 obj"))
      ∧ ((makePdf imageStream width height).output.drop
          (makePdf imageStream width height).xrefStart).take 4 = encStr "xref" := by
  obtain ⟨hlen, hmark⟩ := writeObjects_spec (pdfObjects imageStream width height) 1 pdfHeader
  refine ⟨?_, ?_, ?_⟩
  · show (writeObjects 1 (pdfObjects imageStream width height) pdfHeader).2.length = 5
    rw [hlen]
    rfl
  · intro i hi
    obtain ⟨pre, post, hfin, hpos⟩ := hmark i (by simpa [pdfObjects] using hi)
    rw [Nat.add_comm 1 i] at hfin
    show (((writeObjects 1 (pdfObjects imageStream width height) pdfHeader).1
        ++ xrefTrailer (writeObjects 1 (pdfObjects imageStream width height) pdfHeader).2
          (pdfObjects imageStream width height).length
          (writeObjects 1 (pdfObjects imageStream width height) pdfHeader).1.length).drop
        ((writeObjects 1 (pdfObjects imageStream width height) pdfHeader).2.getD i 0)).take
        (encStr (toString (i + 1) ++ " 0 obj")).length = encStr (toString (i + 1) ++ " 0 obj")
    rw [hpos, hfin]
    exact dropTake_marker pre _ _ _
  · show (((writeObjects 1 (pdfObjects imageStream width height) pdfHeader).1
        ++ xrefTrailer (writeObjects 1 (pdfObjects imageStream width height) pdfHeader).2
          (pdfObjects imageStream width height).length
          (writeObjects 1 (pdfObjects imageStream width height) pdfHeader).1.length).drop
        (writeObjects 1 (pdfObjects imageStream width height) pdfHeader).1.length).take 4
        = encStr "xref"
    rw [List.drop_left]
    exact xrefTrailer_take4 _ _ _

/-- Witness for C1 at a concrete stream and page size, object 3. -/
theorem c1_xref_table_offsets_witness :
    ((makePdf [7, 7, 7] 2 3).output.drop ((makePdf [7, 7, 7] 2 3).xrefPositions.getD 2 0)).take
        (encStr (toString (2 + 1) ++ " 0 obj")).length = encStr (toString (2 + 1) ++ " 0 obj") :=
  (c1_xref_table_offsets [7, 7, 7] 2 3).2.1 2 (by decide)

theorem getElem?_pixelAt (l : List Nat) (px k : Nat) :
    (pixelAt l px)[k]? = if k < 3 then l[3 * px + k]? else none := by
  unfold pixelAt
  rw [List.getElem?_take]
  split
  · rw [List.getElem?_drop]
  · rfl

theorem pixelAt_setSlice_ne (l x : List Nat) (i j : Nat) (hx : x.length = 3)
    (h : 3 * i + 3 ≤ l.length) (hij : j ≠ i) :
    pixelAt (setSlice l (3 * i) (3 * i + 3) x) j = pixelAt l j := by
  apply List.ext_getElem?
  intro k
  rw [getElem?_pixelAt, getElem?_pixelAt]
  split
  · rw [getElem?_setSlice l x (3 * i) (3 * i + 3) (3 * j + k) (by omega) h]
    rw [if_neg (by omega)]
  · rfl

theorem pixelAt_setSlice_self (l x : List Nat) (i : Nat) (hx : x.length = 3)
    (h : 3 * i + 3 ≤ l.length) :
    pixelAt (setSlice l (3 * i) (3 * i + 3) x) i = x := by
  apply List.ext_getElem?
  intro k
  rw [getElem?_pixelAt]
  split
  · rw [getElem?_setSlice l x (3 * i) (3 * i + 3) (3 * i + k) (by omega) h]
    rw [if_pos (by omega)]
    congr 1
    omega
  · exact (List.getElem?_eq_none (by omega)).symm

theorem keyPassAux_spec :
    ∀ (k px : Nat) (result key : List Nat), 3 * (px + k) ≤ result.length →
      (keyPassAux key k px result).length = result.length
        ∧ ∀ j, pixelAt (keyPassAux key k px result) j =
            if px ≤ j ∧ j < px + k then
              (if pixelAt result j = key then [255, 255, 255] else pixelAt result j)
            else pixelAt result j := by
  intro k
  induction k with
  | zero =>
    intro px result key h
    exact ⟨rfl, fun j => by rw [keyPassAux, if_neg (by omega)]⟩
  | succ n ih =>
    intro px result key h
    have hwin : 3 * px + 3 ≤ result.length := by omega
    have hR2len : (if (result.drop (3 * px)).take 3 = key then
        setSlice result (3 * px) (3 * px + 3) [255, 255, 255] else result).length
        = result.length := by
      split
      · exact length_setSlice _ _ _ _ (by simp) hwin
      · rfl
    have hih := ih (px + 1)
      (if (result.drop (3 * px)).take 3 = key then
        setSlice result (3 * px) (3 * px + 3) [255, 255, 255] else result)
      key (by rw [hR2len]; omega)
    have hpix : ∀ j2, pixelAt (if (result.drop (3 * px)).take 3 = key then
        setSlice result (3 * px) (3 * px + 3) [255, 255, 255] else result) j2
        = if j2 = px then
            (if pixelAt result px = key then [255, 255, 255] else pixelAt result px)
          else pixelAt result j2 := by
      intro j2
      by_cases hc : (result.drop (3 * px)).take 3 = key
      · rw [if_pos hc]
        by_cases hj : j2 = px
        · subst hj
          rw [if_pos rfl, if_pos (show pixelAt result j2 = key from hc)]
          exact pixelAt_setSlice_self result [255, 255, 255] j2 (by decide) hwin
        · rw [if_neg hj]
          exact pixelAt_setSlice_ne result [255, 255, 255] px j2 (by decide) hwin hj
      · rw [if_neg hc]
        by_cases hj : j2 = px
        · subst hj
          rw [if_pos rfl, if_neg (show ¬pixelAt result j2 = key from hc)]
        · rw [if_neg hj]
    constructor
    · rw [keyPassAux]
      rw [hih.1, hR2len]
    · intro j
      rw [keyPassAux]
      rw [hih.2 j, hpix j]
      by_cases hj : j = px
      · subst hj
        have hA : ¬(j + 1 ≤ j ∧ j < j + 1 + n) := by omega
        have hB : j ≤ j ∧ j < j + (n + 1) := ⟨Nat.le_refl j, by omega⟩
        rw [if_neg hA, if_pos rfl, if_pos hB]
      · have hQ : (if j = px then
            (if pixelAt result px = key then [255, 255, 255] else pixelAt result px)
          else pixelAt result j) = pixelAt result j := if_neg hj
        rw [hQ]
        by_cases hcnd : px + 1 ≤ j ∧ j < px + 1 + n
        · have hB : px ≤ j ∧ j < px + (n + 1) := ⟨by omega, by omega⟩
          rw [if_pos hcnd, if_pos hB]
        · have hB : ¬(px ≤ j ∧ j < px + (n + 1)) := by omega
          rw [if_neg hcnd, if_neg hB]

/-- C7: when the color mode is truecolor (channels = 3) and a transparency
payload carrying a key triple is present, the decoder output is the composited
buffer with every pixel equal to the key `transparency[:3]` replaced by white
and every other pixel unchanged; in indexed and truecolor-alpha modes the
substitution is never performed and the composited buffer is returned as is. -/
theorem c7_truecolor_key_substitution (st : PngState) (dec mid t : List Nat)
    (hmid : compositeRows st dec = .ok mid)
    (ht : st.transparency = some t) (ht3 : 3 ≤ t.length)
    (hlen : mid.length = 3 * (st.width * st.height)) :
    (st.colorType = 2 →
        toRgb st dec = .ok (keyPassAux (t.take 3) (st.width * st.height) 0 mid)
          ∧ ∀ px, px < st.width * st.height →
              pixelAt (keyPassAux (t.take 3) (st.width * st.height) 0 mid) px
                = if pixelAt mid px = t.take 3 then [255, 255, 255] else pixelAt mid px)
      ∧ ((st.colorType = 3 ∨ st.colorType = 6) → toRgb st dec = .ok mid) := by
  constructor
  · intro hct
    have hch : channelsOf st.colorType = 3 := by simp [channelsOf, hct]
    constructor
    · unfold toRgb
      rw [hmid, ht]
      dsimp only
      rw [if_pos ⟨hch, by simp; intro hnil; rw [hnil] at ht3; simp at ht3⟩]
      simp
    · intro px hpx
      have hk := (keyPassAux_spec (st.width * st.height) 0 mid (t.take 3) (by omega)).2 px
      rw [hk, if_pos ⟨Nat.zero_le px, by omega⟩]
  · intro hct
    unfold toRgb
    rw [hmid]
    dsimp only
    rw [if_neg ?_]
    rintro ⟨hc3, -⟩
    rcases hct with h | h <;> simp [channelsOf, h] at hc3

/-- Witness for C7 on a concrete 2x1 truecolor image whose first pixel matches
the key. -/
theorem c7_truecolor_key_substitution_witness :
    toRgb keyedPng [0, 1, 2, 3, 9, 9, 9]
        = .ok (keyPassAux (([1, 2, 3] : List Nat).take 3)
            (keyedPng.width * keyedPng.height) 0 [1, 2, 3, 9, 9, 9])
      ∧ pixelAt (keyPassAux (([1, 2, 3] : List Nat).take 3)
            (keyedPng.width * keyedPng.height) 0 [1, 2, 3, 9, 9, 9]) 0
          = if pixelAt [1, 2, 3, 9, 9, 9] 0 = ([1, 2, 3] : List Nat).take 3
            then [255, 255, 255] else pixelAt [1, 2, 3, 9, 9, 9] 0 := by
  have h := (c7_truecolor_key_substitution keyedPng [0, 1, 2, 3, 9, 9, 9] [1, 2, 3, 9, 9, 9]
    [1, 2, 3] (by rfl) (by rfl) (by decide) (by decide)).1 (by rfl)
  exact ⟨h.1, h.2 0 (by decide)⟩

/-- A successful checked byte assignment preserves the buffer length. -/
theorem setByte_ok_length {l : List Nat} {i v : Nat} {res : List Nat}
    (h : setByte l i v = .ok res) : res.length = l.length := by
  unfold setByte at h
  split at h
  · split at h
    · injection h with h1
      rw [← h1]
      simp
    · exact absurd h (by simp)
  · exact absurd h (by simp)

/-- The filter iteration preserves the row length. -/
theorem filterGo_length {f : List Nat → Nat → Option Nat} :
    ∀ {k i : Nat} {r res : List Nat}, filterGo f k i r = some res → res.length = r.length := by
  intro k
  induction k with
  | zero =>
    intro i r res h
    injection h with h
    rw [← h]
  | succ n ih =>
    intro i r res h
    rw [filterGo] at h
    cases hf : f r i with
    | none => rw [hf] at h; exact absurd h (by simp)
    | some v =>
      rw [hf] at h
      rw [ih h]
      simp

/-- A successful in-place filter pass preserves the row length. -/
theorem filterLoop_length {f : List Nat → Nat → Option Nat} {row res : List Nat}
    (h : filterLoop f row = some res) : res.length = row.length :=
  filterGo_length h

/-- A filter dispatch that returns `ok` got its row from a successful filter
pass. -/
theorem filterMatch_length {f : List Nat → Nat → Option Nat} {row res : List Nat}
    (h : (match filterLoop f row with
          | some r => Except.ok r
          | none => Except.error RgbError.indexErr) = Except.ok res) :
    res.length = row.length := by
  cases hf : filterLoop f row with
  | none => rw [hf] at h; exact absurd h (by simp)
  | some r =>
    rw [hf] at h
    injection h with h
    rw [← h]
    exact filterLoop_length hf

/-- Reversing any filter preserves the row length. -/
theorem applyFilter_length {ft : Nat} {row prevRow : List Nat} {channels : Nat} {res : List Nat}
    (h : applyFilter ft row prevRow channels = .ok res) : res.length = row.length := by
  unfold applyFilter at h
  dsimp only at h
  split at h
  · injection h with h; rw [← h]
  · split at h
    · exact filterMatch_length h
    · split at h
      · exact filterMatch_length h
      · split at h
        · exact filterMatch_length h
        · split at h
          · exact filterMatch_length h
          · exact absurd h (by simp)

/-- A successful in-bounds pixel write preserves the buffer length. -/
theorem writeAlphaPixel_length {result : List Nat} {out r g b a : Nat} {res : List Nat}
    (hout : out + 3 ≤ result.length)
    (h : writeAlphaPixel result out r g b a = .ok res) : res.length = result.length := by
  unfold writeAlphaPixel at h
  split at h
  · injection h with h
    rw [← h]
    exact length_setSlice _ _ _ _ (by simp) hout
  · split at h
    · injection h with h
      rw [← h]
      exact length_setSlice _ _ _ _ (by simp) hout
    · cases hs1 : setByte result out (blendChannel r a) with
      | error e => rw [hs1] at h; exact absurd h (by simp)
      | ok res₁ =>
        rw [hs1] at h
        dsimp only at h
        cases hs2 : setByte res₁ (out + 1) (blendChannel g a) with
        | error e => rw [hs2] at h; exact absurd h (by simp)
        | ok res₂ =>
          rw [hs2] at h
          dsimp only at h
          rw [setByte_ok_length h, setByte_ok_length hs2, setByte_ok_length hs1]

/-- The 4-channel pixel loop of a row: in bounds, it succeeds only with a
buffer of unchanged length, advancing the output offset by 3 bytes per
pixel. -/
theorem alphaRowLoop_spec {row : List Nat} :
    ∀ (k px outOff : Nat) (result res : List Nat) (outEnd : Nat),
      outOff + 3 * k ≤ result.length →
      alphaRowLoop row k px outOff result = .ok (res, outEnd) →
      res.length = result.length ∧ outEnd = outOff + 3 * k := by
  intro k
  induction k with
  | zero =>
    intro px outOff result res outEnd hb h
    rw [alphaRowLoop] at h
    injection h with h
    injection h with h1 h2
    exact ⟨by rw [← h1], by omega⟩
  | succ n ih =>
    intro px outOff result res outEnd hb h
    rw [alphaRowLoop] at h
    split at h
    · next r g b a heq =>
      cases hw : writeAlphaPixel result outOff r g b a with
      | error e => rw [hw] at h; exact absurd h (by simp)
      | ok res₁ =>
        rw [hw] at h
        dsimp only at h
        have hlen₁ : res₁.length = result.length :=
          writeAlphaPixel_length (by omega) hw
        obtain ⟨hl, ho⟩ := ih (px + 1) (outOff + 3) res₁ res outEnd (by omega) h
        exact ⟨by omega, by omega⟩
    · exact absurd h (by simp)

/-- The indexed pixel loop of a row: in bounds, it succeeds only with a buffer
of unchanged length, advancing the output offset by 3 bytes per pixel. -/
theorem indexedRowLoop_spec {row : List Nat} {palette : List (Nat × Nat × Nat)}
    {alphaTable : List Nat} :
    ∀ (k px outOff : Nat) (result res : List Nat) (outEnd : Nat),
      outOff + 3 * k ≤ result.length →
      indexedRowLoop row palette alphaTable k px outOff result = .ok (res, outEnd) →
      res.length = result.length ∧ outEnd = outOff + 3 * k := by
  intro k
  induction k with
  | zero =>
    intro px outOff result res outEnd hb h
    rw [indexedRowLoop] at h
    injection h with h
    injection h with h1 h2
    exact ⟨by rw [← h1], by omega⟩
  | succ n ih =>
    intro px outOff result res outEnd hb h
    rw [indexedRowLoop] at h
    cases hrow : row[px]? with
    | none => rw [hrow] at h; exact absurd h (by simp)
    | some index =>
      rw [hrow] at h
      dsimp only at h
      cases hpal : palette[index]? with
      | none => rw [hpal] at h; exact absurd h (by simp)
      | some trip =>
        obtain ⟨r, g, b⟩ := trip
        rw [hpal] at h
        dsimp only at h
        cases hat : alphaTable[index]? with
        | none => rw [hat] at h; exact absurd h (by simp)
        | some a =>
          rw [hat] at h
          dsimp only at h
          cases hw : writeAlphaPixel result outOff r g b a with
          | error e => rw [hw] at h; exact absurd h (by simp)
          | ok res₁ =>
            rw [hw] at h
            dsimp only at h
            have hlen₁ : res₁.length = result.length :=
              writeAlphaPixel_length (by omega) hw
            obtain ⟨hl, ho⟩ := ih (px + 1) (outOff + 3) res₁ res outEnd (by omega) h
            exact ⟨by omega, by omega⟩

/-- The row loop of `to_rgb`: with enough decompressed data for every row and
an output buffer large enough for every pixel, success leaves the buffer
length unchanged. -/
theorem rowsLoop_length {dec : List Nat} {width channels : Nat}
    {palette : List (Nat × Nat × Nat)} {alphaTable : List Nat} :
    ∀ (hR offset outOff : Nat) (prev result buf : List Nat),
      outOff + hR * (3 * width) ≤ result.length →
      offset + hR * (1 + width * channels) ≤ dec.length →
      rowsLoop dec width channels palette alphaTable hR offset outOff prev result = .ok buf →
      buf.length = result.length := by
  intro hR
  induction hR with
  | zero =>
    intro offset outOff prev result buf hb hd h
    rw [rowsLoop] at h
    injection h with h
    rw [← h]
  | succ n ih =>
    intro offset outOff prev result buf hb hd h
    have hbx : (n + 1) * (3 * width) = 3 * width + n * (3 * width) := by ring
    have hdx : (n + 1) * (1 + width * channels)
        = (1 + width * channels) + n * (1 + width * channels) := by ring
    rw [hbx] at hb
    rw [hdx] at hd
    rw [rowsLoop] at h
    cases hft : dec[offset]? with
    | none => rw [hft] at h; exact absurd h (by simp)
    | some ft =>
      rw [hft] at h
      dsimp only at h
      cases haf : applyFilter ft ((dec.drop (offset + 1)).take (width * channels)) prev channels with
      | error e => rw [haf] at h; exact absurd h (by simp)
      | ok row =>
        rw [haf] at h
        dsimp only at h
        have hrowlen : row.length = width * channels := by
          rw [applyFilter_length haf, List.length_take, List.length_drop]
          omega
        split at h
        · next hch =>
          have hwc : width * channels = 3 * width := by rw [hch]; ring
          have hsl : (setSlice result outOff (outOff + width * channels) row).length
              = result.length :=
            length_setSlice _ _ _ _ (by omega) (by omega)
          have := ih (offset + 1 + width * channels) (outOff + width * channels) row
            (setSlice result outOff (outOff + width * channels) row) buf
            (by omega) (by omega) h
          omega
        · split at h
          · cases har : alphaRowLoop row width 0 outOff result with
            | error e => rw [har] at h; exact absurd h (by simp)
            | ok ro =>
              obtain ⟨res₁, outEnd⟩ := ro
              rw [har] at h
              dsimp only at h
              obtain ⟨hl, ho⟩ := alphaRowLoop_spec width 0 outOff result res₁ outEnd
                (by omega) har
              have := ih (offset + 1 + width * channels) outEnd row res₁ buf
                (by omega) (by omega) h
              omega
          · cases har : indexedRowLoop row palette alphaTable width 0 outOff result with
            | error e => rw [har] at h; exact absurd h (by simp)
            | ok ro =>
              obtain ⟨res₁, outEnd⟩ := ro
              rw [har] at h
              dsimp only at h
              obtain ⟨hl, ho⟩ := indexedRowLoop_spec width 0 outOff result res₁ outEnd
                (by omega) har
              have := ih (offset + 1 + width * channels) outEnd row res₁ buf
                (by omega) (by omega) h
              omega

/-- With enough decompressed data for every row, a successful composite pass
fills exactly the `width * height * 3`-byte buffer it allocated. -/
theorem compositeRows_length {st : PngState} {dec mid : List Nat}
    (hd : st.height * (1 + st.width * channelsOf st.colorType) ≤ dec.length)
    (h : compositeRows st dec = .ok mid) :
    mid.length = st.width * st.height * 3 := by
  unfold compositeRows at h
  dsimp only at h
  split at h
  · cases hp : st.palette with
    | none => rw [hp] at h; exact absurd h (by simp)
    | some p =>
      rw [hp] at h
      dsimp only at h
      have := rowsLoop_length st.height 0 0 _ _ mid
        (by rw [List.length_replicate]; exact Nat.le_of_eq (by ring))
        (by simpa using hd) h
      simpa using this
  · have := rowsLoop_length st.height 0 0 _ _ mid
      (by rw [List.length_replicate]; exact Nat.le_of_eq (by ring))
      (by simpa using hd) h
    simpa using this

/-- C4 (amended): whenever the decompressed stream holds at least
`height * (1 + width * channels)` bytes — one filter byte plus a full payload
per row — a successful decode returns a pixel buffer of exactly
`width * height * 3` bytes, in every color mode.  (Without that bound the
claim fails: see the counterexample, where a truncated final truecolor row
silently shrinks the buffer.) -/
theorem c4_decoded_length (st : PngState) (dec buf : List Nat)
    (hd : st.height * (1 + st.width * channelsOf st.colorType) ≤ dec.length)
    (h : toRgb st dec = .ok buf) :
    buf.length = st.width * st.height * 3 := by
  unfold toRgb at h
  cases hc : compositeRows st dec with
  | error e => rw [hc] at h; exact absurd h (by simp)
  | ok mid =>
    rw [hc] at h
    dsimp only at h
    have hmid := compositeRows_length hd hc
    split at h
    · injection h with h
      rw [← h]
      have hkp := (keyPassAux_spec (st.width * st.height) 0 mid
        (((st.transparency.getD []).take 3)) (by rw [hmid]; exact Nat.le_of_eq (by ring))).1
      rw [hkp, hmid]
    · injection h with h
      rw [← h]
      exact hmid

/-- Witness for C4 (amended): a full 1x1 truecolor stream decodes to 3
bytes. -/
theorem c4_decoded_length_witness :
    ([10, 20, 30] : List Nat).length = 1 * 1 * 3 :=
  c4_decoded_length { initState with width := 1, height := 1, colorType := 2 }
    [0, 10, 20, 30] [10, 20, 30] (by decide) (by rfl)

/-- Counterexample to C4 as stated: a 2x1 truecolor image whose decompressed
stream holds only 3 of the 6 payload bytes of its single row decodes without
any error — the slice assignment silently shrinks the buffer — and returns 3
bytes instead of `2 * 1 * 3 = 6`. -/
theorem c4_claim_counterexample :
    toRgb { initState with width := 2, height := 1, colorType := 2 } [0, 1, 2, 3]
        = .ok [1, 2, 3]
      ∧ ([1, 2, 3] : List Nat).length ≠ 2 * 1 * 3 :=
  ⟨by rfl, by decide⟩
